import Mathlib

/-!
Shallow embedding of the `configurable` crate.

The crate ships two historical variants of the same library:
`src/lib.rs` (a self-contained variant) and the module files
`src/configurable.rs`, `src/env.rs`, `src/error.rs`.  The `Configurable`
trait operations (`ensure_dir`, `load`, `load_or_default`, `save`) are
semantically identical across the two variants (the `lib.rs` variant's
`ensure_dir` is the `Config`/`config_dir` case), so a single embedding
parameterized by the directory kind covers both.  The `.env` loaders
differ in one place — `lib.rs` keeps only lines starting with `#`
while `env.rs` drops them — so both are embedded separately.

External effects are modelled by explicit state passing over `World`
(filesystem and home-directory state) and `EnvWorld` (overlay file and
process environment).  The TOML codec (`toml::from_str`,
`toml::to_string_pretty`) is external to the crate and is abstracted as
a `Codec` record; a Rust panic (`Option::expect`) is the `fatal`
outcome, distinct from a typed `Error`.
-/

namespace Configurable

/-- The `Error` enum from `src/error.rs` (identical in `src/lib.rs`):
`Write`/`Read` wrap I/O errors, `TomlRead`/`TomlWrite` wrap TOML codec
errors; payloads are modelled as their message strings. -/
inductive Error where
  | Write (e : String)
  | Read (e : String)
  | TomlRead (e : String)
  | TomlWrite (e : String)
deriving DecidableEq

/-- The `LoadState` enum from `src/lib.rs` (the spec calls the first
variant `Defaulted`; the code names it `Default`). -/
inductive LoadState (α : Type) where
  | Default (v : α)
  | Loaded (v : α)
deriving DecidableEq

/-- Result of running a Rust function that may return `Result` or panic:
`fatal` models a panic (from `Option::expect`), which is not a typed
`Error` value. -/
inductive Outcome (α : Type) where
  | fatal (msg : String)
  | ok (v : α)
  | err (e : Error)
deriving DecidableEq

/-- Which OS base directory a `Configurable` type resolves against:
`Config::ensure_dir` uses `config_dir()`, `Data::ensure_dir` uses
`data_dir()` (src/configurable.rs). -/
inductive DirKind where
  | config
  | data
deriving DecidableEq

/-- External state seen by the `Configurable` operations: whether a home
directory is resolvable, the resolved project directories (the concrete
path convention lives in the external `directories` crate and is kept
abstract), whether each project directory currently exists, whether the
OS permits directory creation / file writes, the current content of the
configuration file at the resolved path (`none` = absent or unreadable),
and the I/O error messages the OS would report. -/
structure World where
  hasHome : Bool
  configDir : String
  dataDir : String
  configDirExists : Bool
  dataDirExists : Bool
  createOk : Bool
  createErr : String
  fileContent : Option String
  readErr : String
  writeOk : Bool
  writeErr : String
deriving DecidableEq

/-- The resolved directory for a kind. -/
def World.dirOf (w : World) : DirKind → String
  | .config => w.configDir
  | .data => w.dataDir

/-- Whether the project directory for a kind currently exists. -/
def World.dirExists (w : World) : DirKind → Bool
  | .config => w.configDirExists
  | .data => w.dataDirExists

/-- Mark the project directory for a kind as existing. -/
def World.setDirExists (w : World) : DirKind → World
  | .config => { w with configDirExists := true }
  | .data => { w with dataDirExists := true }

/-- The panic message of the `.expect(..)` call in every `ensure_dir`
implementation. -/
def expectMsg : String := "system must have a valid $HOME directory"

/-- The two resolved per-project directories, as returned by
`directories::ProjectDirs`. -/
structure ProjDirs where
  config_dir : String
  data_dir : String
deriving DecidableEq

/-- Embeds `directories::ProjectDirs::from(qualifier, org, app)`: returns
the resolved project directories when the host has a resolvable home
directory and `None` otherwise.  The identity triple determines the
concrete paths via the external `directories` crate, which is abstracted
into the `World`'s resolved-path fields. -/
def projectDirsFrom (_qualifier _org _app : String) (w : World) : Option ProjDirs :=
  if w.hasHome then some ⟨w.configDir, w.dataDir⟩ else none

/-- Embeds `std::fs::create_dir_all` semantics at the granularity the
model needs: succeeds immediately when the directory (with all its
ancestors) already exists, otherwise creates it iff the OS permits
creation (`createOk`). -/
def create_dir_all (k : DirKind) (w : World) : Bool × World :=
  if w.dirExists k then (true, w)
  else if w.createOk then (true, w.setDirExists k)
  else (false, w)

/-- Embeds `ensure_dir` (src/configurable.rs lines 7-30, and
src/lib.rs lines 80-87 which is the `config` case): resolve the project
directories — panicking via `.expect` when there is no home directory —
pick the directory for the kind, `create_dir_all` it (a failure becomes
`Error::Write`), and return the path. -/
def ensure_dir (q org app : String) (k : DirKind) (w : World) : Outcome String × World :=
  match projectDirsFrom q org app w with
  | none => (.fatal expectMsg, w)
  | some dirs =>
    let dir := match k with
      | .config => dirs.config_dir
      | .data => dirs.data_dir
    match create_dir_all k w with
    | (true, w') => (.ok dir, w')
    | (false, w') => (.err (.Write w'.createErr), w')

/-- The serialization boundary of a `Configurable` value type: the
`Default` instance, `toml::from_str` and `toml::to_string_pretty`
(external to the crate; errors carry their message). -/
structure Codec (α : Type) where
  dflt : α
  from_str : String → Except String α
  to_string_pretty : α → Except String String

/-- Embeds `Configurable::load` (src/configurable.rs lines 305-311,
src/lib.rs lines 104-110): ensure the directory (propagating its error
or panic), read the file as text — absence or unreadability becomes
`Error::Read` — and parse it, with a parse failure silently replaced by
the default value (`.map_err(Error::TomlRead).unwrap_or_default()`). -/
def load {α : Type} (c : Codec α) (q org app : String) (k : DirKind) (w : World) :
    Outcome α × World :=
  match ensure_dir q org app k w with
  | (.fatal m, w') => (.fatal m, w')
  | (.err e, w') => (.err e, w')
  | (.ok _dir, w') =>
    match w'.fileContent with
    | none => (.err (.Read w'.readErr), w')
    | some data =>
      (.ok (match c.from_str data with
            | .ok v => v
            | .error _ => c.dflt), w')

/-- Embeds `Configurable::load_or_default` (src/configurable.rs lines
296-302, src/lib.rs lines 94-101): `Ok(v)` becomes `Loaded(v)`,
`Err(Error::Read(..))` becomes `Ok(Default(default))`, every other
error is returned unchanged. -/
def load_or_default {α : Type} (c : Codec α) (q org app : String) (k : DirKind) (w : World) :
    Outcome (LoadState α) × World :=
  match load c q org app k w with
  | (.fatal m, w') => (.fatal m, w')
  | (.ok v, w') => (.ok (.Loaded v), w')
  | (.err (.Read _), w') => (.ok (.Default c.dflt), w')
  | (.err e, w') => (.err e, w')

/-- Embeds `Configurable::save` (src/configurable.rs lines 314-318,
src/lib.rs lines 113-117): ensure the directory (propagating), serialize
— a failure becomes `Error::TomlWrite` before the file is touched — and
write the text to the file, a failed write becoming `Error::Write`. -/
def save {α : Type} (c : Codec α) (q org app : String) (k : DirKind) (v : α) (w : World) :
    Outcome Unit × World :=
  match ensure_dir q org app k w with
  | (.fatal m, w') => (.fatal m, w')
  | (.err e, w') => (.err e, w')
  | (.ok _dir, w') =>
    match c.to_string_pretty v with
    | .error e => (.err (.TomlWrite e), w')
    | .ok s =>
      if w'.writeOk then (.ok (), { w' with fileContent := some s })
      else (.err (.Write w'.writeErr), w')

/-! ### The `.env` overlay (src/env.rs, and the variant in src/lib.rs) -/

/-- External state seen by `Env`: the readable text files by path
(`none` = `read_to_string` fails) and the process environment, as the
partial map that `env::var` / `env::vars` observe. -/
structure EnvWorld where
  files : String → Option String
  vars : String → Option String

/-- Split a character list at every occurrence of `sep` (the semantics
of splitting a string on a one-character separator): always returns at
least one piece. -/
def splitOnChar (sep : Char) : List Char → List (List Char)
  | [] => [[]]
  | x :: xs =>
    let r := splitOnChar sep xs
    if x = sep then [] :: r
    else match r with
      | [] => [[x]]
      | y :: ys => (x :: y) :: ys

/-- Strip one trailing carriage return, as Rust `str::lines` does for a
line terminated by `\r\n`. -/
def stripCR (l : List Char) : List Char :=
  if l.getLast? = some '\r' then l.dropLast else l

/-- Post-process the pieces split on `\n` the way Rust `str::lines`
does: every piece but the last was terminated by a `\n`, so a trailing
`\r` is stripped from it; a final empty piece (from a trailing newline,
or an empty input) yields no line, and a final non-empty piece is kept
verbatim (its terminator was absent, so no `\r` is stripped). -/
def stripCRall : List (List Char) → List (List Char)
  | [] => []
  | [l] => if l = [] then [] else [l]
  | l :: ls => stripCR l :: stripCRall ls

/-- Embeds Rust `str::lines`. -/
def rustLines (data : String) : List String :=
  (stripCRall (splitOnChar '\n' data.data)).map String.mk

/-- Embeds Rust `str::splitn(2, sep)` on a character list: the piece
before the first `sep`, and — when `sep` occurs at all — the whole
remainder after it (later occurrences of `sep` are kept intact). -/
def splitn2 (sep : Char) : List Char → List Char × Option (List Char)
  | [] => ([], none)
  | x :: xs =>
    if x = sep then ([], some xs)
    else
      let (k, r) := splitn2 sep xs
      (x :: k, r)

/-- Embeds Rust `str::trim` on a character list: whitespace removed from
both ends (modelled at `Char.isWhitespace` granularity). -/
def trimChars (l : List Char) : List Char :=
  ((l.dropWhile Char.isWhitespace).reverse.dropWhile Char.isWhitespace).reverse

/-- Embeds Rust `str::starts_with('#')`. -/
def startsHash (line : String) : Bool :=
  match line.data with
  | c :: _ => c = '#'
  | [] => false

/-- Embeds one step of the line parser
(`line.splitn(2, '=').map(str::trim)` followed by taking both pieces,
src/env.rs lines 30-33): when the line has an `=`, the trimmed text
before the first `=` and the trimmed remainder form the pair; a line
with no `=` has no second piece, so the `filter_map` skips it. -/
def lineToPair (line : String) : Option (String × String) :=
  match splitn2 '=' line.data with
  | (_, none) => none
  | (k, some v) => some (String.mk (trimChars k), String.mk (trimChars v))

/-- The parsed entries of an overlay file under the `env.rs` filter,
which drops lines starting with `#` (src/env.rs line 29). -/
def envEntries (data : String) : List (String × String) :=
  ((rustLines data).filter (fun s => !startsHash s)).filterMap lineToPair

/-- The parsed entries of an overlay file under the `lib.rs` filter,
which keeps only lines starting with `#` (src/lib.rs line 149). -/
def envEntriesLib (data : String) : List (String × String) :=
  ((rustLines data).filter (fun s => startsHash s)).filterMap lineToPair

/-- Insert one binding into a map, as `HashMap` insertion does: the new
binding shadows any older one for the same key. -/
def mapInsert (m : String → Option String) (k v : String) : String → Option String :=
  fun q => if q = k then some v else m q

/-- Embeds `collect::<HashMap<_, _>>()` over a sequence of pairs: later
pairs overwrite earlier ones. -/
def collectMap (ps : List (String × String)) : String → Option String :=
  ps.foldl (fun m kv => mapInsert m kv.1 kv.2) (fun _ => none)

/-- Embeds the `.inspect(|(k, v)| env::set_var(k, v))` side effect: each
parsed pair is set in the process environment, in order. -/
def setVars (vars : String → Option String) (ps : List (String × String)) :
    String → Option String :=
  ps.foldl (fun e kv => mapInsert e kv.1 kv.2) vars

namespace Env

/-- Embeds `Env::load` from src/env.rs (lines 22-39): read the file; on
success parse its lines (dropping `#` lines), set each pair into the
process environment, and collect the pairs into a map; when the read
fails, return a snapshot of the whole process environment instead. -/
def load (path : String) (w : EnvWorld) : (String → Option String) × EnvWorld :=
  match w.files path with
  | some data =>
    let ps := envEntries data
    (collectMap ps, { w with vars := setVars w.vars ps })
  | none => (w.vars, w)

/-- Embeds `Env::load` from src/lib.rs (lines 142-158), whose only
difference is the inverted comment filter: it keeps only lines starting
with `#`. -/
def loadLib (path : String) (w : EnvWorld) : (String → Option String) × EnvWorld :=
  match w.files path with
  | some data =>
    let ps := envEntriesLib data
    (collectMap ps, { w with vars := setVars w.vars ps })
  | none => (w.vars, w)

/-- Embeds `Env::env` from src/env.rs (lines 11-15): load `".env"`,
take the key's entry from the resulting map, and fall back to
`env::var(key)` — observed after `load`'s `set_var` side effects. -/
def env (key : String) (w : EnvWorld) : Option String × EnvWorld :=
  let (m, w') := load ".env" w
  match m key with
  | some v => (some v, w')
  | none => (w'.vars key, w')

end Env

/-! ### Concrete instruments used to instantiate the theorems -/

/-- A small concrete codec for `α = Nat`, standing in for a serde/toml
instance: value `7` serializes to `"n = 7"` and parses back; anything
else fails in the respective direction. -/
def natCodec : Codec Nat where
  dflt := 0
  from_str := fun s => if s = "n = 7" then .ok 7 else .error "invalid toml"
  to_string_pretty := fun n => if n = 7 then .ok "n = 7" else .error "unsupported value"

/-- A concrete world: home resolvable, config directory present, file
readable with valid content. -/
def w0 : World where
  hasHome := true
  configDir := "/home/user/.config/com.github.museun.demo"
  dataDir := "/home/user/.local/share/com.github.museun.demo"
  configDirExists := true
  dataDirExists := false
  createOk := true
  createErr := "permission denied"
  fileContent := some "n = 7"
  readErr := "no such file or directory"
  writeOk := true
  writeErr := "disk full"

/-- `w0` with a syntactically invalid configuration file. -/
def wBadToml : World := { w0 with fileContent := some "not toml" }

/-- `w0` with the configuration file absent. -/
def wNoFile : World := { w0 with fileContent := none }

/-- `w0` with the config directory not yet created. -/
def wNoDir : World := { w0 with configDirExists := false }

/-- The overlay file of the spec's EnvOverlay test vector. -/
def c4file : String := "KEY1=VAL1\n# comment\nKEY2 = \"VAL2\"\n"

/-- An environment whose `.env` file is `c4file` and whose process
environment is empty. -/
def c4world : EnvWorld := ⟨fun p => if p = ".env" then some c4file else none, fun _ => none⟩

/-- An overlay file holding a line with no `=`, a line with an empty
key, a line with an empty value, and a well-formed line. -/
def c6file : String := "NOEQ\n=VAL1\nKEY2=\nGOOD=YES\n"

/-- An environment whose `.env` file is `c6file`. -/
def c6world : EnvWorld := ⟨fun p => if p = ".env" then some c6file else none, fun _ => none⟩

/-- An environment where the `.env` file defines `KEY1=VAL1` while the
process environment already holds the conflicting value `OLD` for
`KEY1`. -/
def envW1 : EnvWorld :=
  ⟨fun p => if p = ".env" then some "KEY1=VAL1\n" else none,
   fun k => if k = "KEY1" then some "OLD" else none⟩

/-- An environment with no readable files at all and a one-variable
process environment. -/
def envW2 : EnvWorld := ⟨fun _ => none, fun k => if k = "PATH" then some "/usr/bin" else none⟩

/-! ### Helper lemmas -/

theorem setDirExists_fileContent (w : World) (k : DirKind) :
    (w.setDirExists k).fileContent = w.fileContent := by
  cases k <;> rfl

theorem setDirExists_hasHome (w : World) (k : DirKind) :
    (w.setDirExists k).hasHome = w.hasHome := by cases k <;> rfl

theorem setDirExists_dirExists (w : World) (k : DirKind) :
    (w.setDirExists k).dirExists k = true := by cases k <;> rfl

theorem ensure_dir_snd (q org app : String) (k : DirKind) (w : World) :
    (ensure_dir q org app k w).2 = w ∨ (ensure_dir q org app k w).2 = w.setDirExists k := by
  unfold ensure_dir projectDirsFrom create_dir_all
  by_cases hh : w.hasHome <;> simp [hh]
  by_cases hd : w.dirExists k <;> simp [hd]
  by_cases hc : w.createOk <;> simp [hc]

theorem ensure_dir_snd_fileContent (q org app : String) (k : DirKind) (w : World) :
    (ensure_dir q org app k w).2.fileContent = w.fileContent := by
  rcases ensure_dir_snd q org app k w with h | h <;> rw [h]
  exact setDirExists_fileContent w k

theorem load_snd (α : Type) (c : Codec α) (q org app : String) (k : DirKind) (w : World) :
    (load c q org app k w).2 = (ensure_dir q org app k w).2 := by
  unfold load
  rcases he : ensure_dir q org app k w with ⟨o, w'⟩
  rcases o with m | d | e
  · rfl
  · rcases hf : w'.fileContent with _ | data <;> simp [hf]
  · rfl

theorem load_snd_fileContent (α : Type) (c : Codec α) (q org app : String) (k : DirKind)
    (w : World) : (load c q org app k w).2.fileContent = w.fileContent := by
  rw [load_snd]; exact ensure_dir_snd_fileContent q org app k w

theorem load_of_readable (α : Type) (c : Codec α) (q org app : String) (k : DirKind)
    (w : World) (data : String)
    (hh : w.hasHome = true) (hd : w.dirExists k = true) (hf : w.fileContent = some data) :
    load c q org app k w =
      (.ok (match c.from_str data with | .ok v => v | .error _ => c.dflt), w) := by
  unfold load ensure_dir projectDirsFrom create_dir_all
  simp [hh, hd, hf]

theorem ensure_dir_ok_post (q org app : String) (k : DirKind) (w : World)
    (d : String) (w₁ : World) (h : ensure_dir q org app k w = (.ok d, w₁)) :
    w₁.hasHome = true ∧ w₁.dirExists k = true := by
  unfold ensure_dir projectDirsFrom create_dir_all at h
  by_cases hh : w.hasHome <;> simp [hh] at h
  by_cases hd : w.dirExists k <;> simp [hd] at h
  · exact ⟨h.2 ▸ hh, h.2 ▸ hd⟩
  · by_cases hc : w.createOk <;> simp [hc] at h
    refine ⟨?_, ?_⟩
    · rw [← h.2, setDirExists_hasHome]; exact hh
    · rw [← h.2]; exact setDirExists_dirExists w k

theorem ensure_dir_err_write (q org app : String) (k : DirKind) (w : World) (e : Error)
    (h : (ensure_dir q org app k w).1 = .err e) : ∃ s, e = .Write s := by
  unfold ensure_dir projectDirsFrom create_dir_all at h
  by_cases hh : w.hasHome <;> simp [hh] at h
  by_cases hd : w.dirExists k <;> simp [hd] at h
  by_cases hc : w.createOk <;> simp [hc] at h
  exact ⟨w.createErr, h.symm⟩

theorem load_err_kinds (α : Type) (c : Codec α) (q org app : String) (k : DirKind)
    (w : World) (e : Error) (h : (load c q org app k w).1 = .err e) :
    (∃ s, e = .Write s) ∨ (∃ s, e = .Read s) := by
  unfold load at h
  rcases he : ensure_dir q org app k w with ⟨o, w'⟩
  rw [he] at h
  rcases o with m | d | e'
  · simp at h
  · rcases hf : w'.fileContent with _ | data <;> simp [hf] at h
    exact Or.inr ⟨w'.readErr, h.symm⟩
  · simp at h
    exact Or.inl (h ▸ ensure_dir_err_write q org app k w e' (by rw [he]))

theorem load_or_default_err (α : Type) (c : Codec α) (q org app : String) (k : DirKind)
    (w : World) (e : Error) (h : (load_or_default c q org app k w).1 = .err e) :
    (load c q org app k w).1 = .err e := by
  unfold load_or_default at h
  rcases hl : load c q org app k w with ⟨o, w'⟩
  rw [hl] at h
  rcases o with m | v | e'
  · simp at h
  · simp at h
  · rcases e' with s | s | s | s <;> simp at h <;> rw [← h]

theorem splitn2_eq_none_of_not_mem (sep : Char) (l : List Char) (h : sep ∉ l) :
    splitn2 sep l = (l, none) := by
  induction l with
  | nil => rfl
  | cons x xs ih =>
    rw [splitn2]
    have hx : ¬ x = sep := fun he => h (he ▸ List.mem_cons_self x xs)
    simp only [if_neg hx]
    rw [ih (fun hm => h (List.mem_cons_of_mem x hm))]

theorem splitn2_some_of_mem (sep : Char) (l : List Char) (h : sep ∈ l) :
    (splitn2 sep l).2 ≠ none := by
  induction l with
  | nil => exact absurd h (List.not_mem_nil sep)
  | cons x xs ih =>
    rw [splitn2]
    by_cases hx : x = sep
    · simp [hx]
    · simp only [if_neg hx]
      rcases List.mem_cons.mp h with he | hm
      · exact absurd he.symm hx
      · simpa using ih hm

/-! ### Claim theorems -/

/-- C1: `load_or_default` leaves the configuration file untouched in
every case (the default is only constructed in memory), returns
`Loaded(v)` when `load` succeeds with `v`, returns the default instance
tagged `Default` exactly when `load` fails with a `Read` error (file
absent or unreadable), and propagates every other error unchanged. -/
theorem load_or_default_spec (α : Type) (c : Codec α) (q org app : String)
    (k : DirKind) (w : World) :
    (load_or_default c q org app k w).2 = (load c q org app k w).2
    ∧ (load_or_default c q org app k w).2.fileContent = w.fileContent
    ∧ (∀ v : α, (load c q org app k w).1 = .ok v →
        (load_or_default c q org app k w).1 = .ok (.Loaded v))
    ∧ (∀ s : String, (load c q org app k w).1 = .err (.Read s) →
        (load_or_default c q org app k w).1 = .ok (.Default c.dflt))
    ∧ ((load_or_default c q org app k w).1 = .ok (.Default c.dflt) →
        ∃ s : String, (load c q org app k w).1 = .err (.Read s))
    ∧ (∀ e : Error, (load c q org app k w).1 = .err e → (∀ s, e ≠ .Read s) →
        (load_or_default c q org app k w).1 = .err e) := by
  have hfc := load_snd_fileContent α c q org app k w
  unfold load_or_default
  rcases hl : load c q org app k w with ⟨o, w'⟩
  rw [hl] at hfc
  rcases o with m | v | e
  · exact ⟨rfl, hfc, by simp, by simp, by simp, by simp⟩
  · exact ⟨rfl, hfc, by simp, by simp, by simp, by simp⟩
  · rcases e with s | s | s | s
    · exact ⟨rfl, hfc, by simp, by simp, by simp, by simp⟩
    · refine ⟨rfl, hfc, by simp, by simp, fun _ => ⟨s, rfl⟩, ?_⟩
      intro e he hne
      simp at he
      exact absurd (he ▸ rfl : e = Error.Read s) (hne s)
    · exact ⟨rfl, hfc, by simp, by simp, by simp, by simp⟩
    · exact ⟨rfl, hfc, by simp, by simp, by simp, by simp⟩

/-- C1 witness: on a world with a readable valid file, `load_or_default`
returns `Loaded 7`. -/
theorem load_or_default_spec_witness :
    (load_or_default natCodec "com.github" "museun" "demo" DirKind.config w0).1
      = .ok (.Loaded 7) :=
  (load_or_default_spec Nat natCodec "com.github" "museun" "demo" DirKind.config w0).2.2.1 7
    (by decide)

/-- C2: `load` on an existing, readable file whose content does not
parse returns `Ok` with the type's default value — the parse error is
masked, not surfaced as an `Err`. -/
theorem load_invalid_toml_defaults (α : Type) (c : Codec α) (q org app : String)
    (k : DirKind) (w : World) (data msg : String)
    (hh : w.hasHome = true) (hd : w.dirExists k = true)
    (hf : w.fileContent = some data) (hp : c.from_str data = .error msg) :
    load c q org app k w = (.ok c.dflt, w) := by
  rw [load_of_readable α c q org app k w data hh hd hf, hp]

/-- C2 witness: loading the unparsable file `"not toml"` yields
`Ok 0` (the default), not an error. -/
theorem load_invalid_toml_defaults_witness :
    load natCodec "com.github" "museun" "demo" DirKind.config wBadToml = (.ok 0, wBadToml) :=
  load_invalid_toml_defaults Nat natCodec "com.github" "museun" "demo" DirKind.config wBadToml
    "not toml" "invalid toml" (by decide) (by decide) (by decide) rfl

/-- C3: when `save v` succeeds and the codec round-trips `v` (lossless
serialization), a subsequent `load` on the post-save world returns
`Ok v`. -/
theorem save_then_load_roundtrip (α : Type) (c : Codec α) (q org app : String)
    (k : DirKind) (v : α) (w w' : World)
    (hs : save c q org app k v w = (.ok (), w'))
    (hrt : ∀ s : String, c.to_string_pretty v = .ok s → c.from_str s = .ok v) :
    (load c q org app k w').1 = .ok v := by
  unfold save at hs
  rcases he : ensure_dir q org app k w with ⟨o, w₁⟩
  rw [he] at hs
  rcases o with m | d | e
  · simp at hs
  · rcases hts : c.to_string_pretty v with e2 | s <;> rw [hts] at hs
    · simp at hs
    · by_cases hw : w₁.writeOk <;> simp [hw] at hs
      have hpost := ensure_dir_ok_post q org app k w d w₁ he
      have hh' : w'.hasHome = true := by rw [← hs]; exact hpost.1
      have hd' : w'.dirExists k = true := by
        rw [← hs]; cases k <;> simpa [World.dirExists] using hpost.2
      have hf' : w'.fileContent = some s := by rw [← hs]
      rw [load_of_readable α c q org app k w' s hh' hd' hf', hrt s hts]
  · simp at hs

/-- C3 witness: saving `7` on `w0` succeeds with post-world `w0` itself
(its file already holds the serialization), and loading returns
`Ok 7`. -/
theorem save_then_load_roundtrip_witness :
    (load natCodec "com.github" "museun" "demo" DirKind.config w0).1 = .ok 7 :=
  save_then_load_roundtrip Nat natCodec "com.github" "museun" "demo" DirKind.config 7 w0 w0
    (by decide) (by intro s hs; simp [natCodec] at hs; rw [← hs]; rfl)

/-- C4: on the overlay file `KEY1=VAL1\n# comment\nKEY2 = "VAL2"\n`,
the `env.rs` loader maps `KEY1` to `VAL1` and the comment line to no
entry, but maps `KEY2` to the value with its surrounding quote
characters kept (`"VAL2"` of length 6), not to `VAL2`; the `lib.rs`
variant in addition keeps only `#`-lines, producing no entries at all
for this file. -/
theorem env_load_c4_mapping :
    (Env.load ".env" c4world).1 "KEY1" = some "VAL1"
    ∧ (Env.load ".env" c4world).1 "KEY2" = some "\"VAL2\""
    ∧ (Env.load ".env" c4world).1 "KEY2" ≠ some "VAL2"
    ∧ (Env.load ".env" c4world).1 "# comment" = none
    ∧ (Env.loadLib ".env" c4world).1 "KEY1" = none
    ∧ (Env.loadLib ".env" c4world).1 "KEY2" = none :=
  ⟨by decide, by decide, by decide, by decide, by decide, by decide⟩

/-- C5: overlay-wins precedence — when the parsed `.env` mapping holds a
value for a key, `Env::env` returns that value, whatever the process
environment previously held for the key. -/
theorem env_overlay_wins (key v data : String) (w : EnvWorld)
    (hf : w.files ".env" = some data)
    (hk : collectMap (envEntries data) key = some v) :
    (Env.env key w).1 = some v := by
  unfold Env.env Env.load
  rw [hf]
  simp [hk]

/-- C5 witness: with `.env` defining `KEY1=VAL1` and the process
environment holding the conflicting `OLD`, `Env::env` returns
`VAL1`. -/
theorem env_overlay_wins_witness :
    (Env.env "KEY1" envW1).1 = some "VAL1" :=
  env_overlay_wins "KEY1" "VAL1" "KEY1=VAL1\n" envW1 (by decide) (by decide)

/-- C6 counterexample: in the file `NOEQ\n=VAL1\nKEY2=\nGOOD=YES\n`,
the empty-key line `=VAL1` and the empty-value line `KEY2=` are not
skipped — they contribute the entries `"" -> VAL1` and `KEY2 -> ""` —
refuting the claim that lines with an empty key or value contribute no
entry (only the `=`-less line is skipped). -/
theorem env_load_empty_key_value_kept :
    (Env.load ".env" c6world).1 "" = some "VAL1"
    ∧ (Env.load ".env" c6world).1 "KEY2" = some ""
    ∧ (Env.load ".env" c6world).1 "NOEQ" = none
    ∧ (Env.load ".env" c6world).1 "GOOD" = some "YES" :=
  ⟨by decide, by decide, by decide, by decide⟩

/-- C6 (amended): `Env::load` signals no error (it always returns the
collected mapping); a line with no `=` is individually skipped while the
other lines are still parsed; but a line containing an `=` is never
skipped, even when its key or value is empty. -/
theorem env_load_skip_behavior (w : EnvWorld) (path data : String)
    (h : w.files path = some data) :
    (Env.load path w).1 = collectMap (envEntries data)
    ∧ (∀ line : String, '=' ∉ line.data → lineToPair line = none)
    ∧ (∀ line : String, '=' ∈ line.data → lineToPair line ≠ none) := by
  refine ⟨?_, ?_, ?_⟩
  · unfold Env.load; rw [h]
  · intro line hm
    unfold lineToPair
    rw [splitn2_eq_none_of_not_mem '=' line.data hm]
  · intro line hm hcontra
    unfold lineToPair at hcontra
    rcases hs : splitn2 '=' line.data with ⟨kk, r⟩
    rcases r with _ | v
    · exact splitn2_some_of_mem '=' line.data hm (by rw [hs])
    · rw [hs] at hcontra; simp at hcontra

/-- C6 amended witness: on `c6world` the returned mapping is the
collected entries of `c6file`. -/
theorem env_load_skip_behavior_witness :
    (Env.load ".env" c6world).1 = collectMap (envEntries c6file) :=
  (env_load_skip_behavior c6world ".env" c6file (by decide)).1

/-- C7: when the overlay file does not exist, `Env::load` returns the
full pre-existing process environment snapshot as the mapping and leaves
the environment state completely unchanged. -/
theorem env_load_missing_file (path : String) (w : EnvWorld) (h : w.files path = none) :
    Env.load path w = (w.vars, w) := by
  unfold Env.load; rw [h]

/-- C7 witness: with no readable `.env` file, `Env::load` returns the
process environment of `envW2` and `envW2` itself unchanged. -/
theorem env_load_missing_file_witness :
    Env.load ".env" envW2 = (envW2.vars, envW2) :=
  env_load_missing_file ".env" envW2 rfl

/-- C8: for an identity with non-empty organization and application,
`ensure_dir` panics (a fatal, non-typed condition) when the host has no
resolvable home directory; succeeds without touching the world when the
directory already exists (idempotence); creates the directory when it is
missing and creation is permitted; and returns a `Write` error when
creation fails. -/
theorem ensure_dir_spec (q org app : String) (k : DirKind) (w : World)
    (_hid : org ≠ "" ∧ app ≠ "") :
    (w.hasHome = false → ensure_dir q org app k w = (.fatal expectMsg, w))
    ∧ (w.hasHome = true → w.dirExists k = true →
        ensure_dir q org app k w = (.ok (w.dirOf k), w))
    ∧ (w.hasHome = true → w.dirExists k = false → w.createOk = true →
        ensure_dir q org app k w = (.ok (w.dirOf k), w.setDirExists k)
        ∧ (w.setDirExists k).dirExists k = true)
    ∧ (w.hasHome = true → w.dirExists k = false → w.createOk = false →
        ensure_dir q org app k w = (.err (.Write w.createErr), w)) := by
  refine ⟨fun hh => ?_, fun hh hd => ?_, fun hh hd hc => ⟨?_, setDirExists_dirExists w k⟩,
    fun hh hd hc => ?_⟩ <;>
    unfold ensure_dir projectDirsFrom create_dir_all <;>
    cases k <;> simp_all [World.dirExists, World.dirOf, World.setDirExists]

/-- C8 witness: on `w0` (home present, config directory present),
`ensure_dir` succeeds idempotently, returning the resolved directory
and the unchanged world. -/
theorem ensure_dir_spec_witness :
    ensure_dir "com.github" "museun" "demo" DirKind.config w0
      = (.ok (w0.dirOf DirKind.config), w0) :=
  (ensure_dir_spec "com.github" "museun" "demo" DirKind.config w0
    ⟨by decide, by decide⟩).2.1 (by decide) (by decide)

/-- C9: `load` — and hence `load_or_default` — can only fail with the
`Write` or `Read` error kinds; the `TomlRead` variant is unreachable
because a parse failure is converted to the default before `load`
returns. -/
theorem load_error_kinds (α : Type) (c : Codec α) (q org app : String) (k : DirKind)
    (w : World) (e : Error)
    (h : (load c q org app k w).1 = .err e ∨ (load_or_default c q org app k w).1 = .err e) :
    (∃ s, e = .Write s) ∨ (∃ s, e = .Read s) := by
  rcases h with h | h
  · exact load_err_kinds α c q org app k w e h
  · exact load_err_kinds α c q org app k w e (load_or_default_err α c q org app k w e h)

/-- C9 witness: on a world with no file, `load` fails with the `Read`
kind, which the theorem classifies. -/
theorem load_error_kinds_witness :
    (∃ s, Error.Read "no such file or directory" = Error.Write s)
    ∨ (∃ s, Error.Read "no such file or directory" = Error.Read s) :=
  load_error_kinds Nat natCodec "com.github" "museun" "demo" DirKind.config wNoFile
    (.Read "no such file or directory") (Or.inl (by decide))

/-- C10: `save` serializes before touching the file, so when it returns
a `TomlWrite` (serialize) error the configuration file's prior content
is unchanged (the containing directory may still have been created). -/
theorem save_serialize_fail_preserves_file (α : Type) (c : Codec α) (q org app : String)
    (k : DirKind) (v : α) (w w' : World) (msg : String)
    (h : save c q org app k v w = (.err (.TomlWrite msg), w')) :
    w'.fileContent = w.fileContent := by
  unfold save at h
  rcases he : ensure_dir q org app k w with ⟨o, w₁⟩
  rw [he] at h
  have hfc : w₁.fileContent = w.fileContent := by
    have := ensure_dir_snd_fileContent q org app k w
    rw [he] at this; exact this
  rcases o with m | d | e
  · simp at h
  · rcases hts : c.to_string_pretty v with e2 | s <;> rw [hts] at h
    · simp at h
      rw [← h.2]; exact hfc
    · by_cases hw : w₁.writeOk <;> simp [hw] at h
  · simp at h
    rw [← h.2]; exact hfc

/-- C10 witness: saving the unserializable value `5` on a world whose
directory had to be created fails with `TomlWrite` and leaves the file
content unchanged. -/
theorem save_serialize_fail_witness :
    (wNoDir.setDirExists DirKind.config).fileContent = wNoDir.fileContent :=
  save_serialize_fail_preserves_file Nat natCodec "com.github" "museun" "demo" DirKind.config 5
    wNoDir (wNoDir.setDirExists DirKind.config) "unsupported value" (by decide)

end Configurable
